import Mathlib

/-!
Verification development for the dist-sys repository: a shallow embedding
of the node runtime (src/lib.rs) and of the echo, unique-ids, broadcast and
counter node engines (src/bin), together with theorems settling the claims
about the natural-language specification.

Machine integers: all Rust `usize` / `u32` values stay far below their
bounds in this code (message ids, set sizes), so they are embedded as `Nat`.
Fallible or panicking code paths are embedded as `Option` / explicit outcome
types.  Randomness (rand's ratio draw) and serde parse results are embedded
as explicit oracle parameters.
-/

set_option maxRecDepth 4096

/-- Embedding of `Message<Payload>` (src/lib.rs lines 7-22): envelope with
`src`, `dst` and a body carrying the optional `msg_id` (field `id`), the
optional `in_reply_to` and the payload. -/
structure Body (P : Type) where
  id : Option Nat
  in_reply_to : Option Nat
  payload : P
deriving DecidableEq

structure Message (P : Type) where
  src : String
  dst : String
  body : Body P
deriving DecidableEq

/-- Embedding of `Message::into_reply` (src/lib.rs lines 24-39): swaps `src`
and `dst`, sets `in_reply_to` to the received message's id, and when a
counter is supplied takes the current counter value as the reply's id and
increments the counter.  The Rust code mutates the counter through
`Option<&mut usize>`; the embedding returns the updated counter. -/
def Message.into_reply {P : Type} (m : Message P) (id : Option Nat) :
    Message P × Option Nat :=
  (⟨m.dst, m.src, ⟨id, m.body.id, m.body.payload⟩⟩, id.map (fun i => i + 1))

/-- C9: for every received message and counter value n, the reply built by
`into_reply` has `src` equal to the request's `dst`, `dst` equal to the
request's `src`, `in_reply_to` equal to the request's `msg_id`, its body id
is the fresh value n taken from the counter, and the counter is incremented
by one. -/
theorem C9_into_reply {P : Type} (m : Message P) (n : Nat) :
    (m.into_reply (some n)).1.src = m.dst
    ∧ (m.into_reply (some n)).1.dst = m.src
    ∧ (m.into_reply (some n)).1.body.in_reply_to = m.body.id
    ∧ (m.into_reply (some n)).1.body.id = some n
    ∧ (m.into_reply (some n)).2 = some (n + 1) :=
  ⟨rfl, rfl, rfl, rfl, rfl⟩

/-!
Main loop event handling (src/lib.rs lines 181-193).

The runtime loop drains the event queue; for every received event it spawns
a detached task that runs `node.step(input, stdout).await.unwrap()` and it
drops the join handle.  An `Err` returned by `step` therefore becomes a
panic of that spawned task; the loop body never inspects any step result.
After the queue closes the loop awaits only the stdin reader task `jh`, and
`main_loop`'s own result comes from that task alone.
-/

/-- Outcome of one spawned handler task in the main loop. -/
inductive TaskOutcome where
  | completed
  | panicked (msg : String)
deriving DecidableEq

/-- Embedding of the spawned closure `node.step(input, ..).await.unwrap()`
(src/lib.rs lines 184-186): an `Ok` step completes the task, an `Err e`
panics the task with `e`. -/
def spawnedStepTask : Except String Unit → TaskOutcome
  | .ok _ => .completed
  | .error e => .panicked e

/-- Embedding of the drain phase of `main_loop` (src/lib.rs lines 181-193)
at the granularity of step results: given the list of results of the `step`
invocations for the queued events and the result of the stdin reader task,
it yields the outcomes of the detached handler tasks and `main_loop`'s own
return value, which is taken from the stdin task alone (lines 189-193). -/
def main_loop_drain (stepResults : List (Except String Unit))
    (stdinTask : Except String Unit) :
    List TaskOutcome × Except String Unit :=
  (stepResults.map spawnedStepTask, stdinTask)

/-- C1 counterexample: a run in which one step invocation returns
`Err "step failed"` while the stdin task finishes cleanly.  The error is in
the step results, yet `main_loop` returns `Ok` — the error is never
propagated by the main loop, refuting the claim that every step error
surfaces to the main loop and terminates the process through it. -/
theorem C1_counterexample :
    (Except.error "step failed" : Except String Unit)
      ∈ [(Except.error "step failed" : Except String Unit)]
    ∧ (main_loop_drain [Except.error "step failed"] (Except.ok ())).2
        = Except.ok () :=
  ⟨List.mem_singleton.mpr rfl, rfl⟩

/-- C1 amended: a step error never surfaces to the main loop — the value
returned by the drain phase depends only on the stdin task's result — and
every step error instead becomes a panic of its detached handler task. -/
theorem C1_step_error_panics_detached_task
    (stepResults : List (Except String Unit)) (stdinTask : Except String Unit) :
    (main_loop_drain stepResults stdinTask).2 = stdinTask
    ∧ ∀ e, Except.error e ∈ stepResults →
        TaskOutcome.panicked e ∈ (main_loop_drain stepResults stdinTask).1 := by
  refine ⟨rfl, fun e he => ?_⟩
  simpa [main_loop_drain] using List.mem_map_of_mem spawnedStepTask he

/-- C1 witness: the amended theorem applied at a concrete run with one
failing step. -/
theorem C1_witness :
    (main_loop_drain [Except.error "boom"] (Except.ok ())).2 = Except.ok ()
    ∧ TaskOutcome.panicked "boom"
        ∈ (main_loop_drain [Except.error "boom"] (Except.ok ())).1 :=
  ⟨(C1_step_error_panics_detached_task [Except.error "boom"] (Except.ok ())).1,
   (C1_step_error_panics_detached_task [Except.error "boom"] (Except.ok ())).2
     "boom" (List.mem_singleton.mpr rfl)⟩

/-!
Dispatcher classification (src/lib.rs lines 144-172).

The stdin reader task extracts the `src` field of each line, computes the
client heuristic, and routes the line.  Parsing by serde is external to the
embedding, so the two parse attempts appear as `Option` oracles.
-/

/-- Embedding of the `is_client` test (src/lib.rs lines 152-153):
`(src.starts_with('c') || src.starts_with('n')) &&
src.chars().skip(1).all(|c| c.is_ascii_digit())`, over the character list
of `src`. -/
def is_client : List Char → Bool
  | [] => false
  | c :: rest => (c = 'c' || c = 'n') && rest.all Char.isDigit

/-- Modelled from the spec's words (for the refinement comparison of C3):
the claimed client pattern — first character is a lowercase letter and
every remaining character is a digit. -/
def clientPatternSpec : List Char → Bool
  | [] => false
  | c :: rest => c.isLower && rest.all Char.isDigit

/-- Result of routing one inbound line (src/lib.rs lines 156-172): enqueue a
client `Event::Message`, enqueue an `Event::ServiceMessage`, or log the line
and skip it. -/
inductive DispatchResult (P SP : Type) where
  | clientEvent (m : Message P)
  | serviceEvent (m : Message SP)
  | droppedLine
deriving DecidableEq

/-- The shared service-parse route (src/lib.rs lines 165-172): the control
flow that both the non-client case and the failed client parse reach. -/
def svcRoute {P SP : Type} (parseSP : Option (Message SP)) : DispatchResult P SP :=
  match parseSP with
  | some m => .serviceEvent m
  | none => .droppedLine

/-- Embedding of the routing of one line (src/lib.rs lines 156-172): when
`is_client` holds and the line parses as the client payload it becomes a
client event; otherwise control continues to the service parse at line 165;
when that fails too the line is logged and skipped.  `parseP` / `parseSP`
are the results of the two serde parse attempts. -/
def classify {P SP : Type} (src : List Char)
    (parseP : Option (Message P)) (parseSP : Option (Message SP)) :
    DispatchResult P SP :=
  if is_client src then
    match parseP with
    | some m => .clientEvent m
    | none => svcRoute parseSP
  else
    svcRoute parseSP

/-- A concrete client message used in the C3 theorems. -/
def c3msg : Message Unit := ⟨"a1", "n1", ⟨some 1, none, ()⟩⟩

/-- C3 counterexample: the source `"a1"` has a lowercase first letter
followed by digits only, so under the claim it matches the client pattern
and the line would first be parsed as the client payload.  The code's
`is_client` test accepts only `'c'` or `'n'` as first character, rejects
`"a1"`, and routes the line straight to the service parse: with a parseable
client payload and a failing service parse the line is dropped instead of
becoming a client event. -/
theorem C3_counterexample :
    clientPatternSpec ['a', '1'] = true
    ∧ is_client ['a', '1'] = false
    ∧ classify ['a', '1'] (some c3msg) (none : Option (Message Unit))
        = DispatchResult.droppedLine := by
  refine ⟨by decide, by decide, ?_⟩
  simp [classify, is_client, svcRoute]

/-- The amended client pattern, stated in the spec's style: the first
character is `'c'` or `'n'` and every remaining character is a digit. -/
def clientPatternAmended (src : List Char) : Prop :=
  (src.head? = some 'c' ∨ src.head? = some 'n')
    ∧ ∀ c ∈ src.tail, c.isDigit = true

/-- C3 amended: the dispatcher treats `src` as matching the client pattern
exactly when its first character is `'c'` or `'n'` and every remaining
character is a digit; when the pattern matches, the line is first parsed as
the client payload, and on parse failure it falls through to the
service-payload parse (the same route taken when the pattern does not
match). -/
theorem C3_client_pattern {P SP : Type} (src : List Char)
    (parseP : Option (Message P)) (parseSP : Option (Message SP)) (m : Message P) :
    (is_client src = true ↔ clientPatternAmended src)
    ∧ (is_client src = true → classify src (some m) parseSP = .clientEvent m)
    ∧ (is_client src = true →
        classify src (none : Option (Message P)) parseSP = svcRoute parseSP)
    ∧ (is_client src = false → classify src parseP parseSP = svcRoute parseSP) := by
  refine ⟨?_, fun h => by simp [classify, h], fun h => by simp [classify, h],
    fun h => by simp [classify, h]⟩
  cases src with
  | nil => simp [is_client, clientPatternAmended]
  | cons c rest =>
    simp [is_client, clientPatternAmended, List.all_eq_true]

/-- C3 witness: the amended theorem applied at the concrete source `"c1"`
with a parseable client payload. -/
theorem C3_witness :
    classify ['c', '1'] (some c3msg) (none : Option (Message Unit))
      = DispatchResult.clientEvent c3msg :=
  (C3_client_pattern ['c', '1'] (some c3msg) none c3msg).2.1 (by decide)

/-!
Echo and unique-ids engines (src/bin/echo.rs, src/bin/unique-ids.rs).

Both engines' `step` opens with
`let Event::Message(input) = input else { panic!("no event injection"); }`,
so every non-client event — the `EOF` the dispatcher enqueues at stdin
close, every `Injected` event and every `ServiceMessage` — panics the
handler.  The panic is embedded as an explicit outcome constructor; the
possible I/O failure of `send` appears as the `sendFails` oracle.
-/

/-- The event type seen by the echo and unique-ids engines:
`Event<Payload, (), ()>` from src/lib.rs lines 63-68. -/
inductive NodeEvent (P : Type) where
  | message (m : Message P)
  | serviceMessage (m : Message Unit)
  | injected (p : Unit)
  | eof
deriving DecidableEq

/-- Outcome of one `step` call: normal return with the emitted messages and
the new id counter, an error return, or a panic. -/
inductive StepResult (P : Type) where
  | ok (out : List (Message P)) (id : Nat)
  | err (msg : String)
  | panicked (msg : String)
deriving DecidableEq

/-- Echo payload (src/bin/echo.rs lines 9-12). -/
inductive EchoPayload where
  | echo (s : String)
  | echo_ok (s : String)
deriving DecidableEq

/-- Embedding of `EchoNode::step` (src/bin/echo.rs lines 33-51): non-message
events panic with "no event injection"; an echo request is answered by
`echo_ok` through `into_reply`; a received `echo_ok` is ignored. -/
def echoStep (id : Nat) (sendFails : Bool) :
    NodeEvent EchoPayload → StepResult EchoPayload
  | .message m =>
    let r := m.into_reply (some id)
    match r.1.body.payload with
    | .echo s =>
      if sendFails then .err "reply to echo"
      else .ok [{ r.1 with body := { r.1.body with payload := .echo_ok s } }]
        (r.2.getD id)
    | .echo_ok _ => .ok [] (r.2.getD id)
  | .serviceMessage _ => .panicked "no event injection"
  | .injected _ => .panicked "no event injection"
  | .eof => .panicked "no event injection"

/-- Unique-ids payload (src/bin/unique-ids.rs lines 10-16). -/
inductive UniquePayload where
  | generate
  | generate_ok (guid : String)
deriving DecidableEq

/-- Embedding of `UniqueNode::step` (src/bin/unique-ids.rs lines 38-59):
non-message events panic with "no event injection"; a generate request is
answered with the guid `node-id` built from the id captured before
`into_reply` increments it. -/
def uniqueStep (node : String) (id : Nat) (sendFails : Bool) :
    NodeEvent UniquePayload → StepResult UniquePayload
  | .message m =>
    let guid_id := id
    let r := m.into_reply (some id)
    match r.1.body.payload with
    | .generate =>
      if sendFails then .err "reply to generate"
      else .ok [{ r.1 with body := { r.1.body with
          payload := .generate_ok (node ++ "-" ++ toString guid_id) } }]
        (r.2.getD id)
    | .generate_ok _ => .ok [] (r.2.getD id)
  | .serviceMessage _ => .panicked "no event injection"
  | .injected _ => .panicked "no event injection"
  | .eof => .panicked "no event injection"

/-- C10: both the echo and the unique-ids engine panic on every event that
is not a client message — the dispatcher's EOF event, every injected event
and every service message — instead of returning `ok` or `err`. -/
theorem C10_step_panics_on_non_message (id : Nat) (sendFails : Bool)
    (node : String) (sme : Message Unit) (smu : Message Unit) (u : Unit) :
    echoStep id sendFails .eof = .panicked "no event injection"
    ∧ echoStep id sendFails (.injected u) = .panicked "no event injection"
    ∧ echoStep id sendFails (.serviceMessage sme) = .panicked "no event injection"
    ∧ uniqueStep node id sendFails .eof = .panicked "no event injection"
    ∧ uniqueStep node id sendFails (.injected u) = .panicked "no event injection"
    ∧ uniqueStep node id sendFails (.serviceMessage smu)
        = .panicked "no event injection" :=
  ⟨rfl, rfl, rfl, rfl, rfl, rfl⟩

/-!
Counter engine (src/bin/counter.rs) and runtime initialization
(src/lib.rs lines 102-139).
-/

/-- Init record (src/lib.rs lines 78-82). -/
structure Init where
  node_id : String
  node_ids : List String
deriving DecidableEq

/-- Init payload handled by the runtime (src/lib.rs lines 70-76). -/
inductive InitPayload where
  | init (i : Init)
  | init_ok
deriving DecidableEq

/-- Embedding of the init reply built by `main_loop` (src/lib.rs lines
121-131): the runtime answers the init message with `init_ok` whose body id
is the hard-coded `Some(0)` (line 125). -/
def initOkReply (m : Message InitPayload) : Message InitPayload :=
  ⟨m.dst, m.src, ⟨some 0, m.body.id, .init_ok⟩⟩

/-- Client payload of the counter workload (src/bin/counter.rs lines 11-16). -/
inductive CPayload where
  | add (delta : Nat)
  | add_ok
  | read
  | read_ok (value : Nat)
deriving DecidableEq

/-- KV payload (src/bin/counter.rs lines 22-30); the `from` and `to` fields
of `cas` are named `fr` and `toVal` because both words are reserved. -/
inductive KvPayload where
  | read (key : String)
  | read_ok (value : Nat)
  | cas (key : String) (fr : Nat) (toVal : Nat)
  | cas_ok
  | write (key : String) (value : Nat)
  | write_ok
  | error (code : Nat) (text : String)
deriving DecidableEq

/-- Embedding of the counter's shared `NodeState` (src/bin/counter.rs lines
33-37): the msg id counter and the key set of `pending_kv_responses`.  The
one-shot senders stored in that map live outside the embedding; a signal to
a slot is recorded explicitly by the step functions below. -/
structure CounterState where
  id : Nat
  pending : Finset Nat
deriving DecidableEq

/-- Embedding of the synchronous `CounterNode::kv_write` (src/bin/counter.rs
lines 133-158): allocate the next msg id and emit `write(key, value)` to
seq-kv carrying it; no pending entry is inserted. -/
def kv_write (node : String) (st : CounterState) (key : String) (value : Nat) :
    CounterState × Message KvPayload :=
  (⟨st.id + 1, st.pending⟩,
   ⟨node, "seq-kv", ⟨some st.id, none, .write key value⟩⟩)

/-- Embedding of `CounterNode::from_init` (src/bin/counter.rs lines
162-184): the state starts with msg id 0 (line 175) and an empty pending
table, then a synchronous `write(node_id, 0)` is emitted.  Returns the node
name, the peer list, the resulting state and the emitted message. -/
def counterFromInit (init : Init) :
    (String × List String × CounterState) × Message KvPayload :=
  ((init.node_id, init.node_ids,
      (kv_write init.node_id ⟨0, ∅⟩ init.node_id 0).1),
   (kv_write init.node_id ⟨0, ∅⟩ init.node_id 0).2)

/-- The msg ids carried by the first two messages a counter node process
emits: the runtime's `init_ok` reply, then the `write` sent by
`CounterNode::from_init` (init reply strictly precedes `from_init`,
src/lib.rs lines 121-139). -/
def counterStartupIds (initMsg : Message InitPayload) (init : Init) :
    List (Option Nat) :=
  [(initOkReply initMsg).body.id, (counterFromInit init).2.body.id]

/-- C2: the first two messages the counter binary emits both carry msg id 0
— the runtime's `init_ok` hard-codes `Some(0)` (src/lib.rs line 125) while
the counter engine also starts its id counter at 0 (src/bin/counter.rs line
175) — so the per-node msg id sequence is not strictly increasing.  The
echo, unique-ids and broadcast engines all start their counters at 1 to
account for the init reply, which marks the counter's 0 as a slip against
the spec's strict per-node monotonicity. -/
theorem C2_duplicate_startup_msg_id :
    counterStartupIds ⟨"c1", "n1", ⟨some 0, none, .init ⟨"n1", ["n1"]⟩⟩⟩
        ⟨"n1", ["n1"]⟩ = [some 0, some 0]
    ∧ ¬ (counterStartupIds ⟨"c1", "n1", ⟨some 0, none, .init ⟨"n1", ["n1"]⟩⟩⟩
        ⟨"n1", ["n1"]⟩).Nodup ∧ ¬ List.Pairwise (fun a b => a < b)
        ((counterStartupIds ⟨"c1", "n1", ⟨some 0, none, .init ⟨"n1", ["n1"]⟩⟩⟩
          ⟨"n1", ["n1"]⟩).map (fun o => o.getD 0)) := by
  refine ⟨rfl, ?_, ?_⟩ <;> decide

/-- A signal delivered to a correlation slot: the slot's msg id together
with the `Result<usize, String>` sent into the one-shot channel. -/
abbrev SlotSignal := Nat × Except String Nat

/-- Embedding of the shared shape of the `cas_ok`, `write_ok` and `error`
arms of `CounterNode::step` (src/bin/counter.rs lines 330-367): when
`in_reply_to` names a pending entry, remove it and signal it with `r`; an
unmatched or absent `in_reply_to` changes nothing and logs nothing. -/
def signalSilently (st : CounterState) (irt : Option Nat) (r : Except String Nat) :
    CounterState × List SlotSignal × List String :=
  match irt with
  | some mid =>
    if mid ∈ st.pending then (⟨st.id, st.pending.erase mid⟩, [(mid, r)], [])
    else (st, [], [])
  | none => (st, [], [])

/-- Embedding of the `Event::ServiceMessage` arm of `CounterNode::step`
(src/bin/counter.rs lines 313-373): `read_ok` signals `Ok(value)` and is the
only arm that logs when the pending entry is missing (line 325); `cas_ok`
and `write_ok` signal `Ok(0)`; `error` signals `Err(text)`; KV request
payloads are ignored (lines 369-371).  Returns the new state, the signals
delivered and the stderr lines logged. -/
def handleService (st : CounterState) (m : Message KvPayload) :
    CounterState × List SlotSignal × List String :=
  match m.body.payload with
  | .read_ok v =>
    match m.body.in_reply_to with
    | some mid =>
      if mid ∈ st.pending then
        (⟨st.id, st.pending.erase mid⟩, [(mid, Except.ok v)], [])
      else (st, [], ["ERROR: got a read ok from non pending msg"])
    | none => (st, [], [])
  | .cas_ok => signalSilently st m.body.in_reply_to (Except.ok 0)
  | .write_ok => signalSilently st m.body.in_reply_to (Except.ok 0)
  | .error _ text => signalSilently st m.body.in_reply_to (Except.error text)
  | .read _ => (st, [], [])
  | .cas _ _ _ => (st, [], [])
  | .write _ _ => (st, [], [])

/-- A sequence of inbound service responses processed in order. -/
def runService (st : CounterState) :
    List (Message KvPayload) → CounterState × List SlotSignal × List String
  | [] => (st, [], [])
  | m :: rest =>
    ((runService (handleService st m).1 rest).1,
     (handleService st m).2.1 ++ (runService (handleService st m).1 rest).2.1,
     (handleService st m).2.2 ++ (runService (handleService st m).1 rest).2.2)

/-- Each correlation slot is signalled at most once: the slot ids of the
delivered signals are pairwise distinct. -/
def atMostOnePerSlot (sigs : List SlotSignal) : Prop :=
  (sigs.map Prod.fst).Nodup

theorem signalSilently_cases (st : CounterState) (irt : Option Nat)
    (r : Except String Nat) :
    ((signalSilently st irt r).1 = st ∧ (signalSilently st irt r).2.1 = [])
    ∨ ∃ mid, mid ∈ st.pending
        ∧ (signalSilently st irt r).1 = ⟨st.id, st.pending.erase mid⟩
        ∧ (signalSilently st irt r).2.1 = [(mid, r)] := by
  cases irt with
  | none => exact Or.inl ⟨rfl, rfl⟩
  | some mid =>
    by_cases h : mid ∈ st.pending
    · exact Or.inr ⟨mid, h, by simp [signalSilently, h], by simp [signalSilently, h]⟩
    · exact Or.inl ⟨by simp [signalSilently, h], by simp [signalSilently, h]⟩

theorem handleService_cases (st : CounterState) (m : Message KvPayload) :
    ((handleService st m).1 = st ∧ (handleService st m).2.1 = [])
    ∨ ∃ mid r, mid ∈ st.pending
        ∧ (handleService st m).1 = ⟨st.id, st.pending.erase mid⟩
        ∧ (handleService st m).2.1 = [(mid, r)] := by
  rcases m with ⟨msrc, mdst, ⟨mid?, irt?, pl⟩⟩
  cases pl with
  | read_ok v =>
    cases irt? with
    | none => exact Or.inl ⟨rfl, rfl⟩
    | some mid =>
      by_cases h : mid ∈ st.pending
      · exact Or.inr ⟨mid, Except.ok v, h,
          by simp [handleService, h], by simp [handleService, h]⟩
      · exact Or.inl ⟨by simp [handleService, h], by simp [handleService, h]⟩
  | cas_ok =>
    rcases signalSilently_cases st irt? (Except.ok 0) with h | ⟨mid, hm, h1, h2⟩
    · exact Or.inl h
    · exact Or.inr ⟨mid, Except.ok 0, hm, h1, h2⟩
  | write_ok =>
    rcases signalSilently_cases st irt? (Except.ok 0) with h | ⟨mid, hm, h1, h2⟩
    · exact Or.inl h
    · exact Or.inr ⟨mid, Except.ok 0, hm, h1, h2⟩
  | error c text =>
    rcases signalSilently_cases st irt? (Except.error text) with h | ⟨mid, hm, h1, h2⟩
    · exact Or.inl h
    · exact Or.inr ⟨mid, Except.error text, hm, h1, h2⟩
  | read k => exact Or.inl ⟨rfl, rfl⟩
  | cas k f t => exact Or.inl ⟨rfl, rfl⟩
  | write k v => exact Or.inl ⟨rfl, rfl⟩

theorem runService_facts (ms : List (Message KvPayload)) :
    ∀ st : CounterState,
      (runService st ms).1.pending ⊆ st.pending
      ∧ (∀ q ∈ (runService st ms).2.1,
          q.1 ∈ st.pending ∧ q.1 ∉ (runService st ms).1.pending)
      ∧ atMostOnePerSlot (runService st ms).2.1 := by
  induction ms with
  | nil =>
    intro st
    exact ⟨Finset.Subset.refl _, by simp [runService], by simp [runService, atMostOnePerSlot]⟩
  | cons m rest ih =>
    intro st
    obtain ⟨ihsub, ihmem, ihnd⟩ := ih (handleService st m).1
    rcases handleService_cases st m with ⟨h1, h2⟩ | ⟨mid, r, hmem, h1, h2⟩
    · refine ⟨?_, ?_, ?_⟩
      · simpa [runService, h1] using (h1 ▸ ihsub)
      · intro q hq
        simp only [runService, h2, List.nil_append] at hq
        obtain ⟨t1, t2⟩ := ihmem q hq
        rw [h1] at t1
        exact ⟨t1, by simpa [runService] using t2⟩
      · simpa [runService, h2, atMostOnePerSlot] using ihnd
    · have herase : (handleService st m).1.pending = st.pending.erase mid := by
        rw [h1]
      refine ⟨?_, ?_, ?_⟩
      · intro x hx
        simp only [runService] at hx
        exact Finset.mem_of_mem_erase (herase ▸ ihsub hx)
      · intro q hq
        simp only [runService, h2, List.cons_append, List.nil_append,
          List.mem_cons] at hq
        rcases hq with hq | hq
        · subst hq
          refine ⟨hmem, fun hc => ?_⟩
          have := herase ▸ ihsub hc
          exact (Finset.not_mem_erase mid st.pending) this
        · obtain ⟨hq1, hq2⟩ := ihmem q hq
          rw [herase] at hq1
          exact ⟨Finset.mem_of_mem_erase hq1, by simpa [runService] using hq2⟩
      · simp only [runService, h2, atMostOnePerSlot, List.map_append, List.map_cons,
          List.map_nil, List.nil_append, List.singleton_append, List.nodup_cons]
        refine ⟨fun hc => ?_, ihnd⟩
        simp only [List.mem_map] at hc
        obtain ⟨q, hq, hq1⟩ := hc
        have := (ihmem q hq).1
        rw [herase, hq1] at this
        exact (Finset.not_mem_erase mid st.pending) this

/-- A concrete unmatched `cas_ok` response used in the C4 theorems. -/
def c4msg : Message KvPayload := ⟨"seq-kv", "n1", ⟨none, some 5, .cas_ok⟩⟩

/-- C4 counterexample: an inbound `cas_ok` whose `in_reply_to` (5) has no
matching pending entry is dropped without modifying the state and without
delivering a signal, but its log component is empty — the claim that every
unmatched service response is logged fails: only an unmatched `read_ok` is
logged (src/bin/counter.rs line 325); `cas_ok`, `write_ok` and `error` are
dropped silently. -/
theorem C4_counterexample :
    handleService ⟨7, ∅⟩ c4msg = (⟨7, ∅⟩, [], []) := by
  simp [handleService, c4msg, signalSilently]

/-- C4 amended: every service response signals its matching pending slot at
most once — over any sequence of responses the signalled slot ids are
pairwise distinct, each signalled slot was pending and is removed — and a
response whose `in_reply_to` has no matching pending entry leaves the state
unchanged and signals nothing; among unmatched responses only `read_ok` is
logged, while `cas_ok`, `write_ok` and `error` are dropped silently. -/
theorem C4_slot_discipline :
    (∀ (st : CounterState) (ms : List (Message KvPayload)),
      atMostOnePerSlot (runService st ms).2.1
      ∧ ∀ q ∈ (runService st ms).2.1,
          q.1 ∈ st.pending ∧ q.1 ∉ (runService st ms).1.pending)
    ∧ (∀ (st : CounterState) (m : Message KvPayload) (mid : Nat),
        m.body.in_reply_to = some mid → mid ∉ st.pending →
        (handleService st m).1 = st ∧ (handleService st m).2.1 = [])
    ∧ (∀ (st : CounterState) (m : Message KvPayload) (v mid : Nat),
        m.body.payload = .read_ok v → m.body.in_reply_to = some mid →
        mid ∉ st.pending →
        (handleService st m).2.2 = ["ERROR: got a read ok from non pending msg"])
    ∧ (∀ (st : CounterState) (m : Message KvPayload) (mid : Nat),
        (m.body.payload = .cas_ok ∨ m.body.payload = .write_ok
          ∨ ∃ c t, m.body.payload = .error c t) →
        m.body.in_reply_to = some mid → mid ∉ st.pending →
        (handleService st m).2.2 = []) := by
  refine ⟨fun st ms => ⟨(runService_facts ms st).2.2, (runService_facts ms st).2.1⟩,
    ?_, ?_, ?_⟩
  · rintro ⟨stid, stp⟩ ⟨msrc, mdst, ⟨mid?, irt?, pl⟩⟩ mid hirt hnm
    simp only at hirt
    subst hirt
    cases pl <;> simp [handleService, signalSilently, hnm]
  · rintro ⟨stid, stp⟩ ⟨msrc, mdst, ⟨mid?, irt?, pl⟩⟩ v mid hpl hirt hnm
    simp only at hpl hirt
    subst hpl; subst hirt
    simp [handleService, hnm]
  · rintro ⟨stid, stp⟩ ⟨msrc, mdst, ⟨mid?, irt?, pl⟩⟩ mid hpl hirt hnm
    simp only at hirt
    subst hirt
    rcases hpl with h | h | ⟨c, t, h⟩ <;> simp only at h <;> subst h <;>
      simp [handleService, signalSilently, hnm]

/-- C4 witness: the amended theorem applied at a concrete unmatched
`write_ok` response against an empty pending table. -/
theorem C4_witness :
    (handleService ⟨7, ∅⟩ ⟨"seq-kv", "n1", ⟨none, some 5, .write_ok⟩⟩).1 = ⟨7, ∅⟩
    ∧ (handleService ⟨7, ∅⟩ ⟨"seq-kv", "n1", ⟨none, some 5, .write_ok⟩⟩).2.1 = [] :=
  C4_slot_discipline.2.1 ⟨7, ∅⟩ ⟨"seq-kv", "n1", ⟨none, some 5, .write_ok⟩⟩ 5
    rfl (by simp)

/-- Embedding of `CounterNode::kv_read` (src/bin/counter.rs lines 47-72)
iterated over the node list by the read handler's issue loop (lines
265-274): each call allocates the next msg id, inserts it into `pending` and
emits `read(key)` to seq-kv.  Returns the final state and the emitted
messages in issue order. -/
def issueReads (node : String) (st : CounterState) :
    List String → CounterState × List (Message KvPayload)
  | [] => (st, [])
  | k :: rest =>
    ((issueReads node ⟨st.id + 1, insert st.id st.pending⟩ rest).1,
     (⟨node, "seq-kv", ⟨some st.id, none, .read k⟩⟩ : Message KvPayload)
       :: (issueReads node ⟨st.id + 1, insert st.id st.pending⟩ rest).2)

/-- Outcome of one kv read in the read handler, keyed by the read key
(src/bin/counter.rs lines 267-296): the send failed (no receiver was
collected), or the awaited slot yielded `Ok(value)`, `Err(text)`, or a
one-shot channel failure. -/
inductive KvReadOutcome where
  | ok (value : Nat)
  | err (text : String)
  | chanFail
  | sendFailed
deriving DecidableEq

/-- The contribution of one awaited outcome to the running total
(src/bin/counter.rs lines 278-296): only `Ok(value)` adds `value`; an
error text — "does not exist" or any other — and a channel failure are
logged and add nothing. -/
def contribution : KvReadOutcome → Nat
  | .ok v => v
  | .err _ => 0
  | .chanFail => 0
  | .sendFailed => 0

/-- Embedding of the receiver collection of the read handler
(src/bin/counter.rs lines 265-274): a receiver is kept for every node whose
`kv_read` send did not fail; a failed send is logged and skipped. -/
def collectReceivers (outcomes : String → KvReadOutcome) :
    List String → List String
  | [] => []
  | k :: rest =>
    if outcomes k = KvReadOutcome.sendFailed then collectReceivers outcomes rest
    else k :: collectReceivers outcomes rest

/-- Embedding of the awaiting loop of the read handler (src/bin/counter.rs
lines 276-296): fold the collected receivers, adding each successful value
into `total_value`. -/
def counterReadTotal (nodeIds : List String)
    (outcomes : String → KvReadOutcome) : Nat :=
  (collectReceivers outcomes nodeIds).foldl
    (fun acc k => acc + contribution (outcomes k)) 0

/-- Embedding of the whole `Payload::Read` arm of `CounterNode::step`
(src/bin/counter.rs lines 252-305), with the sleeps elided (they do not
change any state): issue a kv read per node id, await and sum the
outcomes, then build the `read_ok` reply through `into_reply` on the
advanced id counter.  Returns the final state, the emitted KV requests and
the reply. -/
def counterReadStep (node : String) (req : Message CPayload)
    (nodeIds : List String) (outcomes : String → KvReadOutcome)
    (st : CounterState) :
    CounterState × List (Message KvPayload) × Message CPayload :=
  (⟨((req.into_reply (some (issueReads node st nodeIds).1.id)).2).getD
      (issueReads node st nodeIds).1.id,
    (issueReads node st nodeIds).1.pending⟩,
   (issueReads node st nodeIds).2,
   { (req.into_reply (some (issueReads node st nodeIds).1.id)).1 with
     body := { (req.into_reply (some (issueReads node st nodeIds).1.id)).1.body with
       payload := .read_ok (counterReadTotal nodeIds outcomes) } })

theorem foldl_add_eq_sum (g : String → Nat) :
    ∀ (l : List String) (a : Nat),
      l.foldl (fun acc k => acc + g k) a = a + (l.map g).sum := by
  intro l
  induction l with
  | nil => simp
  | cons k rest ih =>
    intro a
    simp only [List.foldl_cons, List.map_cons, List.sum_cons]
    rw [ih (a + g k)]
    omega

theorem collectReceivers_sum (outcomes : String → KvReadOutcome) :
    ∀ nodeIds : List String,
      ((collectReceivers outcomes nodeIds).map
          (fun k => contribution (outcomes k))).sum
        = (nodeIds.map (fun k => contribution (outcomes k))).sum := by
  intro nodeIds
  induction nodeIds with
  | nil => rfl
  | cons k rest ih =>
    by_cases h : outcomes k = KvReadOutcome.sendFailed
    · rw [collectReceivers, if_pos h, ih, List.map_cons, List.sum_cons, h]
      simp [contribution]
    · rw [collectReceivers, if_neg h, List.map_cons, List.sum_cons, ih,
        List.map_cons, List.sum_cons]

theorem issueReads_payloads (node : String) :
    ∀ (nodeIds : List String) (st : CounterState),
      (issueReads node st nodeIds).2.map (fun m => m.body.payload)
        = nodeIds.map (fun k => KvPayload.read k)
      ∧ (issueReads node st nodeIds).2.map (fun m => m.dst)
        = nodeIds.map (fun _ => "seq-kv") := by
  intro nodeIds
  induction nodeIds with
  | nil => intro st; exact ⟨rfl, rfl⟩
  | cons k rest ih =>
    intro st
    obtain ⟨ih1, ih2⟩ := ih ⟨st.id + 1, insert st.id st.pending⟩
    exact ⟨by simp [issueReads, ih1], by simp [issueReads, ih2]⟩

/-- C8: the read handler issues one `read(key)` KV request per entry of
`node_ids` (all addressed to seq-kv, in list order), never fails, and its
`read_ok` reply value equals the sum over `node_ids` of the returned
values, where an errored read — absent key or otherwise — a channel
failure, or a failed send contributes 0. -/
theorem C8_read_fanout_sum (node : String) (req : Message CPayload)
    (nodeIds : List String) (outcomes : String → KvReadOutcome)
    (st : CounterState) :
    (counterReadStep node req nodeIds outcomes st).2.1.map
        (fun m => m.body.payload) = nodeIds.map (fun k => KvPayload.read k)
    ∧ (counterReadStep node req nodeIds outcomes st).2.1.map (fun m => m.dst)
        = nodeIds.map (fun _ => "seq-kv")
    ∧ (counterReadStep node req nodeIds outcomes st).2.2.body.payload
        = CPayload.read_ok
            ((nodeIds.map (fun k => contribution (outcomes k))).sum) := by
  refine ⟨(issueReads_payloads node nodeIds st).1,
    (issueReads_payloads node nodeIds st).2, ?_⟩
  simp only [counterReadStep, counterReadTotal]
  rw [foldl_add_eq_sum, collectReceivers_sum]
  simp

/-!
Broadcast engine (src/bin/broadcast.rs).

Message sets (`HashSet<usize>`) are embedded as `Finset Nat`; the `known`
map and inbound topology maps (`HashMap<String, ..>`) as association lists
with lookup on the first matching key.  The rng is an oracle: `coins n x` is
the raw draw used for element `x` when gossiping to neighbor `n`.
-/

/-- Broadcast payload (src/bin/broadcast.rs lines 12-28). -/
inductive BPayload where
  | broadcast (message : Nat)
  | broadcast_ok
  | read
  | read_ok (messages : Finset Nat)
  | topology (topology : List (String × List String))
  | topology_ok
  | gossip (seen : Finset Nat)
deriving DecidableEq

/-- Lookup in an association list, mirroring a `HashMap` get (keys unique). -/
def lookupA {β : Type} : List (String × β) → String → Option β
  | [], _ => none
  | kv :: rest, p => if kv.1 = p then some kv.2 else lookupA rest p

/-- Embedding of `NodeState` together with the `node` field of
`BroadcastNode` (src/bin/broadcast.rs lines 36-46). -/
structure BState where
  node : String
  id : Nat
  messages : Finset Nat
  known : List (String × Finset Nat)
  neighborhood : List String
deriving DecidableEq

/-- Embedding of `BroadcastNode::from_init` (src/bin/broadcast.rs lines
49-78): id counter 1, no messages, empty neighborhood, and `known` seeded
with an empty set for every node id. -/
def broadcastFromInit (init : Init) : BState :=
  ⟨init.node_id, 1, ∅, init.node_ids.map (fun nid => (nid, ∅)), []⟩

/-- Events seen by the broadcast engine: `Event<Payload, (), Gossip>`
(src/lib.rs lines 63-68 with src/bin/broadcast.rs lines 30-32). -/
inductive BEvent where
  | message (m : Message BPayload)
  | serviceMessage
  | injected
  | eof

/-- The already-known half of the partition of `messages` against
`known[n]` (src/bin/broadcast.rs lines 99-102). -/
def already_known (messages K : Finset Nat) : Finset Nat :=
  messages.filter (fun m => m ∈ K)

/-- The novel half of the same partition (src/bin/broadcast.rs lines
99-102). -/
def notify_of (messages K : Finset Nat) : Finset Nat :=
  messages.filter (fun m => m ∉ K)

/-- The redundancy cap `10 * notify_of.len() / 100` (src/bin/broadcast.rs
line 106). -/
def additional_cap (messages K : Finset Nat) : Nat :=
  10 * (notify_of messages K).card / 100

/-- Embedding of one call of rand's ratio draw with numerator `num` and
denominator `den` (src/bin/broadcast.rs lines 108-111): the oracle value
`u`, reduced into the uniform range below `den`, succeeds exactly when it
falls below `num`; a uniform oracle thus succeeds with probability
`num / den`.  The code never reaches the draw with `den = 0`. -/
def ratioDraw (num den u : Nat) : Bool := decide (u % den < num)

/-- The `seen` set gossiped to one neighbor (src/bin/broadcast.rs lines
99-112): the novel values extended with each already-known value whose
independent ratio draw — numerator `min additional_cap |already_known|`,
denominator `|already_known|` — succeeds. -/
def gossipSeen (messages K : Finset Nat) (coin : Nat → Nat) : Finset Nat :=
  notify_of messages K ∪
    (already_known messages K).filter (fun x =>
      ratioDraw (min (additional_cap messages K) (already_known messages K).card)
        (already_known messages K).card (coin x))

/-- The gossip message sent to one neighbor (src/bin/broadcast.rs lines
114-124): no msg id and no in_reply_to. -/
def mkGossip (node dst : String) (seen : Finset Nat) : Message BPayload :=
  ⟨node, dst, ⟨none, none, .gossip seen⟩⟩

/-- Embedding of the gossip loop over the neighborhood (src/bin/broadcast.rs
lines 97-125): one gossip per neighbor, in neighborhood order; the indexing
`known[n]` panics (`none`) for a neighbor absent from `known`. -/
def gossipEmit (node : String) (messages : Finset Nat)
    (known : List (String × Finset Nat)) (coins : String → Nat → Nat) :
    List String → Option (List (Message BPayload))
  | [] => some []
  | n :: rest =>
    match lookupA known n with
    | none => none
    | some K =>
      match gossipEmit node messages known coins rest with
      | none => none
      | some ms => some (mkGossip node n (gossipSeen messages K (coins n)) :: ms)

/-- Update of `known[p]` on gossip receipt:
`known.get_mut(&reply.dst).extend(seen)` (src/bin/broadcast.rs lines
136-141). -/
def updateKnown (known : List (String × Finset Nat)) (p : String)
    (seen : Finset Nat) : List (String × Finset Nat) :=
  known.map (fun kv => if kv.1 = p then (kv.1, kv.2 ∪ seen) else kv)

/-- Embedding of `BroadcastNode::step` (src/bin/broadcast.rs lines 80-179).
EOF and service messages do nothing; an injected tick emits the gossip
fan-out and touches no state; a client message is first turned into a reply
— allocating a msg id — and then handled by payload: gossip receipt folds
`seen` into `known[src]` and `messages` (panicking, `none`, when the peer is
absent), broadcast inserts the value and replies `broadcast_ok`, read
replies with a snapshot, topology replaces the neighborhood (panicking when
the map lacks this node), and response payloads are ignored. -/
def bstep (coins : String → Nat → Nat) (s : BState) :
    BEvent → Option (BState × List (Message BPayload))
  | .eof => some (s, [])
  | .serviceMessage => some (s, [])
  | .injected =>
    match gossipEmit s.node s.messages s.known coins s.neighborhood with
    | none => none
    | some ms => some (s, ms)
  | .message m =>
    let reply := (m.into_reply (some s.id)).1
    let s1 : BState := { s with id := (m.into_reply (some s.id)).2.getD s.id }
    match reply.body.payload with
    | .gossip seen =>
      match lookupA s1.known reply.dst with
      | none => none
      | some _ =>
        some ({ s1 with
                known := updateKnown s1.known reply.dst seen,
                messages := s1.messages ∪ seen }, [])
    | .broadcast message =>
      some ({ s1 with messages := insert message s1.messages },
        [{ reply with body := { reply.body with payload := .broadcast_ok } }])
    | .read =>
      some (s1,
        [{ reply with body := { reply.body with payload := .read_ok s1.messages } }])
    | .topology top =>
      match lookupA top s1.node with
      | none => none
      | some nb =>
        some ({ s1 with neighborhood := nb },
          [{ reply with body := { reply.body with payload := .topology_ok } }])
    | .broadcast_ok => some (s1, [])
    | .read_ok _ => some (s1, [])
    | .topology_ok => some (s1, [])

/-- A sequence of events processed by the broadcast engine, starting from a
given state. -/
def brun (coins : String → Nat → Nat) : BState → List BEvent → Option BState
  | s, [] => some s
  | s, e :: rest =>
    match bstep coins s e with
    | none => none
    | some p => brun coins p.1 rest

/-- The broadcast digest invariant: every per-peer known set is contained
in `messages`. -/
def knownSub (s : BState) : Prop := ∀ kv ∈ s.known, kv.2 ⊆ s.messages

theorem gossipEmit_facts (node : String) (msgs : Finset Nat)
    (known : List (String × Finset Nat)) (coins : String → Nat → Nat) :
    ∀ (nb : List String) (out : List (Message BPayload)),
      gossipEmit node msgs known coins nb = some out →
      out.length = nb.length
      ∧ (∀ n ∈ nb, ∃ K, lookupA known n = some K
          ∧ mkGossip node n (gossipSeen msgs K (coins n)) ∈ out)
      ∧ (∀ g ∈ out, ∃ n K, lookupA known n = some K
          ∧ g = mkGossip node n (gossipSeen msgs K (coins n))) := by
  intro nb
  induction nb with
  | nil =>
    intro out h
    simp only [gossipEmit, Option.some.injEq] at h
    subst h
    exact ⟨rfl, by simp, by simp⟩
  | cons n rest ih =>
    intro out h
    cases hk : lookupA known n with
    | none => simp [gossipEmit, hk] at h
    | some K =>
      cases hrec : gossipEmit node msgs known coins rest with
      | none => simp [gossipEmit, hk, hrec] at h
      | some ms =>
        simp only [gossipEmit, hk, hrec, Option.some.injEq] at h
        subst h
        obtain ⟨ih1, ih2, ih3⟩ := ih ms hrec
        refine ⟨by simp [ih1], ?_, ?_⟩
        · intro n' hn'
          rcases List.mem_cons.mp hn' with rfl | hn'
          · exact ⟨K, hk, List.mem_cons_self _ _⟩
          · obtain ⟨K', hK', hmem⟩ := ih2 n' hn'
            exact ⟨K', hK', List.mem_cons_of_mem _ hmem⟩
        · intro g hg
          rcases List.mem_cons.mp hg with rfl | hg
          · exact ⟨n, K, hk, rfl⟩
          · exact ih3 g hg

theorem updateKnown_entry (known : List (String × Finset Nat)) (p : String)
    (seen : Finset Nat) (messages : Finset Nat)
    (h : ∀ kv ∈ known, kv.2 ⊆ messages) :
    ∀ kv ∈ updateKnown known p seen, kv.2 ⊆ messages ∪ seen := by
  intro kv hkv
  simp only [updateKnown, List.mem_map] at hkv
  obtain ⟨kv0, hkv0, rfl⟩ := hkv
  by_cases hp : kv0.1 = p
  · simp only [hp, if_pos]
    exact Finset.union_subset_union (h kv0 hkv0) (Finset.Subset.refl seen)
  · simp only [hp, if_neg, not_false_iff]
    exact (h kv0 hkv0).trans Finset.subset_union_left

theorem bstep_preserves (coins : String → Nat → Nat) (s : BState) (e : BEvent)
    (p : BState × List (Message BPayload)) (h : bstep coins s e = some p) :
    s.messages ⊆ p.1.messages ∧ (knownSub s → knownSub p.1) := by
  cases e with
  | eof =>
    simp only [bstep, Option.some.injEq] at h
    subst h
    exact ⟨Finset.Subset.refl _, fun hs => hs⟩
  | serviceMessage =>
    simp only [bstep, Option.some.injEq] at h
    subst h
    exact ⟨Finset.Subset.refl _, fun hs => hs⟩
  | injected =>
    cases hg : gossipEmit s.node s.messages s.known coins s.neighborhood with
    | none => simp [bstep, hg] at h
    | some ms =>
      simp only [bstep, hg, Option.some.injEq] at h
      subst h
      exact ⟨Finset.Subset.refl _, fun hs => hs⟩
  | message m =>
    rcases m with ⟨msrc, mdst, ⟨mid, irt, pl⟩⟩
    cases pl with
    | gossip seen =>
      cases hk : lookupA s.known msrc with
      | none => simp [bstep, Message.into_reply, hk] at h
      | some K =>
        simp only [bstep, Message.into_reply, hk, Option.some.injEq] at h
        subst h
        refine ⟨Finset.subset_union_left, fun hs kv hkv => ?_⟩
        exact updateKnown_entry s.known msrc seen s.messages hs kv hkv
    | broadcast message =>
      simp only [bstep, Message.into_reply, Option.some.injEq] at h
      subst h
      exact ⟨Finset.subset_insert _ _,
        fun hs kv hkv => (hs kv hkv).trans (Finset.subset_insert _ _)⟩
    | read =>
      simp only [bstep, Message.into_reply, Option.some.injEq] at h
      subst h
      exact ⟨Finset.Subset.refl _, fun hs => hs⟩
    | topology top =>
      cases ht : lookupA top s.node with
      | none => simp [bstep, Message.into_reply, ht] at h
      | some nb =>
        simp only [bstep, Message.into_reply, ht, Option.some.injEq] at h
        subst h
        exact ⟨Finset.Subset.refl _, fun hs => hs⟩
    | broadcast_ok =>
      simp only [bstep, Message.into_reply, Option.some.injEq] at h
      subst h
      exact ⟨Finset.Subset.refl _, fun hs => hs⟩
    | read_ok ms =>
      simp only [bstep, Message.into_reply, Option.some.injEq] at h
      subst h
      exact ⟨Finset.Subset.refl _, fun hs => hs⟩
    | topology_ok =>
      simp only [bstep, Message.into_reply, Option.some.injEq] at h
      subst h
      exact ⟨Finset.Subset.refl _, fun hs => hs⟩

theorem brun_preserves (coins : String → Nat → Nat) (evs : List BEvent) :
    ∀ (s s' : BState), brun coins s evs = some s' →
      s.messages ⊆ s'.messages ∧ (knownSub s → knownSub s') := by
  induction evs with
  | nil =>
    intro s s' h
    simp only [brun, Option.some.injEq] at h
    subst h
    exact ⟨Finset.Subset.refl _, id⟩
  | cons e rest ih =>
    intro s s' h
    cases hb : bstep coins s e with
    | none => simp [brun, hb] at h
    | some p =>
      simp only [brun, hb] at h
      obtain ⟨h1, h2⟩ := bstep_preserves coins s e p hb
      obtain ⟨h3, h4⟩ := ih p.1 s' h
      exact ⟨h1.trans h3, fun hs => h4 (h2 hs)⟩

/-- C5: in every state reachable from `from_init` by any event sequence,
every per-peer `known` entry is a subset of `messages`, and from any
reachable state every further step only grows `messages`. -/
theorem C5_known_subset_and_monotonic (coins : String → Nat → Nat)
    (init : Init) (evs : List BEvent) (s' : BState)
    (h : brun coins (broadcastFromInit init) evs = some s') :
    knownSub s'
    ∧ ∀ (e : BEvent) (p : BState × List (Message BPayload)),
        bstep coins s' e = some p → s'.messages ⊆ p.1.messages := by
  have hinit : knownSub (broadcastFromInit init) := by
    intro kv hkv
    simp only [broadcastFromInit, List.mem_map] at hkv
    obtain ⟨nid, -, rfl⟩ := hkv
    exact Finset.empty_subset _
  exact ⟨(brun_preserves coins evs _ s' h).2 hinit,
    fun e p hp => (bstep_preserves coins s' e p hp).1⟩

/-- Concrete two-event run used by the C5 witness: one client broadcast of
42, then a gossip of 7 from peer n2. -/
def c5evs : List BEvent :=
  [.message ⟨"c1", "n1", ⟨some 1, none, .broadcast 42⟩⟩,
   .message ⟨"n2", "n1", ⟨none, none, .gossip {7}⟩⟩]

/-- The state the concrete C5 run reaches. -/
def c5state : BState := ⟨"n1", 3, {42, 7}, [("n1", ∅), ("n2", {7})], []⟩

/-- C5 witness: the invariant theorem applied to the concrete run. -/
theorem C5_witness : knownSub c5state :=
  (C5_known_subset_and_monotonic (fun _ _ => 0) ⟨"n1", ["n1", "n2"]⟩ c5evs
    c5state (by decide)).1

/-- C6: an injected gossip tick leaves the state — `messages`, `known`,
`neighborhood` and the id counter alike — completely unchanged, and every
emitted message is an outbound gossip from this node. -/
theorem C6_gossip_tick_frame (coins : String → Nat → Nat) (s : BState)
    (p : BState × List (Message BPayload))
    (h : bstep coins s .injected = some p) :
    p.1 = s ∧ ∀ g ∈ p.2, ∃ d seen, g = mkGossip s.node d seen := by
  cases hg : gossipEmit s.node s.messages s.known coins s.neighborhood with
  | none => simp [bstep, hg] at h
  | some ms =>
    simp only [bstep, hg, Option.some.injEq] at h
    subst h
    refine ⟨rfl, fun g hgm => ?_⟩
    obtain ⟨-, -, h3⟩ :=
      gossipEmit_facts s.node s.messages s.known coins s.neighborhood ms hg
    obtain ⟨n, K, -, rfl⟩ := h3 g hgm
    exact ⟨n, gossipSeen s.messages K (coins n), rfl⟩

/-- Concrete state used by the C6 and C7 witnesses: node n1 holds 1 and 2,
peer n2 is known to hold 1, and n2 is the only neighbor. -/
def c6state : BState := ⟨"n1", 1, {1, 2}, [("n2", {1})], ["n2"]⟩

/-- C6 witness: the frame theorem applied to a concrete tick (with the zero
draw oracle, the redundancy cap is 0, so only the novel value 2 is sent). -/
theorem C6_witness :
    ((c6state, [mkGossip "n1" "n2" {2}]) : BState × List (Message BPayload)).1
      = c6state :=
  (C6_gossip_tick_frame (fun _ _ => 0) c6state
    (c6state, [mkGossip "n1" "n2" {2}]) (by decide)).1

theorem ratio_count (num den : Nat) (hle : num ≤ den) :
    ((Finset.range den).filter (fun u => ratioDraw num den u = true)).card
      = num := by
  have hset : (Finset.range den).filter (fun u => ratioDraw num den u = true)
      = Finset.range num := by
    ext u
    simp only [Finset.mem_filter, Finset.mem_range, ratioDraw, decide_eq_true_eq]
    constructor
    · rintro ⟨h1, h2⟩
      rwa [Nat.mod_eq_of_lt h1] at h2
    · intro h1
      have h2 : u < den := lt_of_lt_of_le h1 hle
      exact ⟨h2, by rwa [Nat.mod_eq_of_lt h2]⟩
  rw [hset, Finset.card_range]

/-- C7: a successful gossip tick sends exactly one gossip per neighbor —
also when there is nothing novel to notify — whose seen set is built from
the `already_known` / `notify_of` partition of `messages` against
`known[n]`; the partition is exact (union is `messages`, halves disjoint);
an empty `already_known` disables the redundancy draw; and each
already-known item's draw succeeds for exactly
`min (additional_cap) |already_known|` of the `|already_known|` uniform
oracle values — i.e. with probability `cap / |already_known|`. -/
theorem C7_gossip_redundancy_policy (node : String) (msgs : Finset Nat)
    (known : List (String × Finset Nat)) (coins : String → Nat → Nat)
    (nb : List String) (out : List (Message BPayload))
    (h : gossipEmit node msgs known coins nb = some out) :
    out.length = nb.length
    ∧ (∀ n ∈ nb, ∃ K, lookupA known n = some K
        ∧ mkGossip node n (gossipSeen msgs K (coins n)) ∈ out)
    ∧ (∀ K : Finset Nat, already_known msgs K ∪ notify_of msgs K = msgs
        ∧ Disjoint (already_known msgs K) (notify_of msgs K))
    ∧ (∀ (K : Finset Nat) (coin : Nat → Nat), already_known msgs K = ∅ →
        gossipSeen msgs K coin = notify_of msgs K)
    ∧ (∀ K : Finset Nat,
        ((Finset.range (already_known msgs K).card).filter (fun u =>
            ratioDraw (min (additional_cap msgs K) (already_known msgs K).card)
              (already_known msgs K).card u = true)).card
          = min (additional_cap msgs K) (already_known msgs K).card) := by
  obtain ⟨h1, h2, -⟩ := gossipEmit_facts node msgs known coins nb out h
  refine ⟨h1, h2, fun K => ⟨?_, ?_⟩, fun K coin hempty => ?_, fun K => ?_⟩
  · exact Finset.filter_union_filter_neg_eq (fun m => m ∈ K) msgs
  · exact Finset.disjoint_filter_filter_neg msgs msgs (fun m => m ∈ K)
  · simp [gossipSeen, hempty]
  · exact ratio_count _ _ (Nat.min_le_right _ _)

/-- C7 witness: the policy theorem applied to the concrete tick of the C6
witness. -/
theorem C7_witness :
    ([mkGossip "n1" "n2" {2}] : List (Message BPayload)).length
      = (["n2"] : List String).length :=
  (C7_gossip_redundancy_policy "n1" {1, 2} [("n2", {1})] (fun _ _ => 0)
    ["n2"] [mkGossip "n1" "n2" {2}] (by decide)).1
